import Mathlib

/-!
Shallow embedding of the Content Acquisition & Caching Subsystem of
jztan/pdf-mcp, translated from src/pdf_mcp/url_fetcher.py.

External effects are modelled as explicit oracles:
the DNS resolver (socket.getaddrinfo) is a function from hostname to an
optional list of IPv4 addresses (None modelling a resolution exception);
the network (httpx) is a function from URL to an abstract response; the
cache directory is an explicit state value threaded through operations.
Bytes are Nat values below 256; machine words in the SHA-256 model are
Nat values reduced modulo 2 to the 32.
-/

set_option maxRecDepth 4000

namespace PdfMcp

/-! ## Generic list helpers (boolean, executable) -/

instance exceptDecEq {ε α : Type} [DecidableEq ε] [DecidableEq α] : DecidableEq (Except ε α)
  | .error e, .error f =>
    if h : e = f then isTrue (by rw [h]) else isFalse (by intro hc; cases hc; exact h rfl)
  | .error _, .ok _ => isFalse (by intro hc; cases hc)
  | .ok _, .error _ => isFalse (by intro hc; cases hc)
  | .ok a, .ok b =>
    if h : a = b then isTrue (by rw [h]) else isFalse (by intro hc; cases hc; exact h rfl)

/-- Boolean prefix test on lists (used for bytes and characters). -/
def isPrefixB {α : Type} [BEq α] : List α → List α → Bool
  | [], _ => true
  | _ :: _, [] => false
  | a :: t, b :: u => a == b && isPrefixB t u

/-- Boolean substring (contiguous infix) test. -/
def isInfixB {α : Type} [BEq α] (needle : List α) (hay : List α) : Bool :=
  isPrefixB needle hay ||
    match hay with
    | [] => false
    | _ :: t => isInfixB needle t

/-- Models Python str.endswith: the suffix read backwards is a prefix of
the string read backwards. -/
def strEndsWith (s suffix : String) : Bool :=
  isPrefixB suffix.data.reverse s.data.reverse

theorem isPrefixB_refl_append {α : Type} [BEq α] [LawfulBEq α] :
    ∀ (l t : List α), isPrefixB l (l ++ t) = true := by
  intro l t
  induction l with
  | nil => rfl
  | cons a l ih => simp [isPrefixB, ih]

theorem isPrefixB_exists {α : Type} [BEq α] [LawfulBEq α] :
    ∀ {l m : List α}, isPrefixB l m = true → ∃ t, m = l ++ t := by
  intro l
  induction l with
  | nil => intro m _; exact ⟨m, rfl⟩
  | cons a l ih =>
    intro m h
    cases m with
    | nil => simp [isPrefixB] at h
    | cons b u =>
      simp only [isPrefixB, Bool.and_eq_true, beq_iff_eq] at h
      obtain ⟨t, ht⟩ := ih h.2
      exact ⟨t, by simp [h.1, ht]⟩

/-! ## SHA-256 over byte lists (models hashlib.sha256)

Words are Nat values kept below 2^32 by explicit reduction. -/

def w32 (n : Nat) : Nat := n % 4294967296

def w8 (n : Nat) : Nat := n % 256

def rotr32 (x n : Nat) : Nat := w32 ((x >>> n) ||| (x <<< (32 - n)))

def sha_s0 (x : Nat) : Nat := (rotr32 x 7) ^^^ (rotr32 x 18) ^^^ (x >>> 3)

def sha_s1 (x : Nat) : Nat := (rotr32 x 17) ^^^ (rotr32 x 19) ^^^ (x >>> 10)

def sha_S0 (x : Nat) : Nat := (rotr32 x 2) ^^^ (rotr32 x 13) ^^^ (rotr32 x 22)

def sha_S1 (x : Nat) : Nat := (rotr32 x 6) ^^^ (rotr32 x 11) ^^^ (rotr32 x 25)

/-- The eight 32-bit hash state words. -/
structure Hash8 where
  a : Nat
  b : Nat
  c : Nat
  d : Nat
  e : Nat
  f : Nat
  g : Nat
  h : Nat
deriving DecidableEq, Repr

/-- SHA-256 round constants (decimal rendering of the FIPS 180-4 table). -/
def K256 : List Nat :=
  [1116352408, 1899447441, 3049323471, 3921009573,
   961987163, 1508970993, 2453635748, 2870763221,
   3624381080, 310598401, 607225278, 1426881987,
   1925078388, 2162078206, 2614888103, 3248222580,
   3835390401, 4022224774, 264347078, 604807628,
   770255983, 1249150122, 1555081692, 1996064986,
   2554220882, 2821834349, 2952996808, 3210313671,
   3336571891, 3584528711, 113926993, 338241895,
   666307205, 773529912, 1294757372, 1396182291,
   1695183700, 1986661051, 2177026350, 2456956037,
   2730485921, 2820302411, 3259730800, 3345764771,
   3516065817, 3600352804, 4094571909, 275423344,
   430227734, 506948616, 659060556, 883997877,
   958139571, 1322822218, 1537002063, 1747873779,
   1955562222, 2024104815, 2227730452, 2361852424,
   2428436474, 2756734187, 3204031479, 3329325298]

/-- Initial hash value (decimal rendering of the FIPS 180-4 constants). -/
def initH : Hash8 :=
  ⟨1779033703, 3144134277, 1013904242, 2773480762,
   1359893119, 2600822924, 528734635, 1541459225⟩

/-- Extend the 16-word message block to the 64-word schedule. -/
def extendSchedule : Nat → List Nat → List Nat
  | 0, acc => acc
  | n + 1, acc =>
    let i := acc.length
    let nw := w32 (sha_s1 (acc.getD (i - 2) 0) + acc.getD (i - 7) 0 +
                   sha_s0 (acc.getD (i - 15) 0) + acc.getD (i - 16) 0)
    extendSchedule n (acc ++ [nw])

/-- One SHA-256 compression round. -/
def shaRound (st : Hash8) (kw : Nat × Nat) : Hash8 :=
  let ch := (st.e &&& st.f) ^^^ ((st.e ^^^ 4294967295) &&& st.g)
  let t1 := w32 (st.h + sha_S1 st.e + ch + kw.1 + kw.2)
  let maj := (st.a &&& st.b) ^^^ (st.a &&& st.c) ^^^ (st.b &&& st.c)
  let t2 := w32 (sha_S0 st.a + maj)
  ⟨w32 (t1 + t2), st.a, st.b, st.c, w32 (st.d + t1), st.e, st.f, st.g⟩

/-- Compress one 16-word block into the running hash state. -/
def compress (st : Hash8) (block : List Nat) : Hash8 :=
  let ws := extendSchedule 48 block
  let r := (K256.zip ws).foldl shaRound st
  ⟨w32 (st.a + r.a), w32 (st.b + r.b), w32 (st.c + r.c), w32 (st.d + r.d),
   w32 (st.e + r.e), w32 (st.f + r.f), w32 (st.g + r.g), w32 (st.h + r.h)⟩

/-- Big-endian 8-byte encoding of the bit length. -/
def bytesBE8 (n : Nat) : List Nat :=
  [w8 (n >>> 56), w8 (n >>> 48), w8 (n >>> 40), w8 (n >>> 32),
   w8 (n >>> 24), w8 (n >>> 16), w8 (n >>> 8), w8 n]

/-- SHA-256 padding: a 0x80 byte, zeros to 56 mod 64, then the bit length. -/
def padMessage (msg : List Nat) : List Nat :=
  let z := (55 + 64 - msg.length % 64) % 64
  msg ++ [128] ++ List.replicate z 0 ++ bytesBE8 (8 * msg.length)

/-- Split a byte list into 64-byte chunks (fuel avoids a termination proof). -/
def chunk64 : Nat → List Nat → List (List Nat)
  | 0, _ => []
  | _, [] => []
  | fuel + 1, l => l.take 64 :: chunk64 fuel (l.drop 64)

/-- Split a byte list into 4-byte groups. -/
def chunk4 : Nat → List Nat → List (List Nat)
  | 0, _ => []
  | _, [] => []
  | fuel + 1, l => l.take 4 :: chunk4 fuel (l.drop 4)

/-- Big-endian word from up to four bytes. -/
def wordBE (l : List Nat) : Nat := l.foldl (fun a b => a * 256 + b) 0

/-- Big-endian 4-byte decomposition of a 32-bit word. -/
def wordBytes (w : Nat) : List Nat := [w8 (w >>> 24), w8 (w >>> 16), w8 (w >>> 8), w8 w]

def digestBytes (st : Hash8) : List Nat :=
  wordBytes st.a ++ wordBytes st.b ++ wordBytes st.c ++ wordBytes st.d ++
  wordBytes st.e ++ wordBytes st.f ++ wordBytes st.g ++ wordBytes st.h

/-- SHA-256 of a byte list, as 32 bytes. -/
def sha256 (msg : List Nat) : List Nat :=
  let padded := padMessage msg
  let blocks := chunk64 padded.length padded
  digestBytes (blocks.foldl (fun st b => compress st (chunk4 b.length b |>.map wordBE)) initH)

def hexCharList : List Char := ("0123456789abcdef").data

def byteHex (b : Nat) : List Char := [hexCharList.getD (b / 16 % 16) '0', hexCharList.getD (b % 16) '0']

/-- Lowercase hex rendering of a byte list (models hexdigest). -/
def hexDigest (bs : List Nat) : List Char := (bs.map byteHex).flatten

/-- UTF-8 encoding of one character (models str.encode for each code point). -/
def utf8EncodeCharB (c : Char) : List Nat :=
  let n := c.toNat
  if n < 128 then [n]
  else if n < 2048 then [192 ||| (n >>> 6), 128 ||| (n &&& 63)]
  else if n < 65536 then [224 ||| (n >>> 12), 128 ||| ((n >>> 6) &&& 63), 128 ||| (n &&& 63)]
  else [240 ||| (n >>> 18), 128 ||| ((n >>> 12) &&& 63), 128 ||| ((n >>> 6) &&& 63), 128 ||| (n &&& 63)]

/-- UTF-8 bytes of a string (models url.encode()). -/
def utf8Bytes (s : String) : List Nat := (s.data.map utf8EncodeCharB).flatten

/-- First 16 hex characters of the SHA-256 digest of the URL, as in
hashlib.sha256(url.encode()).hexdigest()[:16]. -/
def sha256hex16 (url : String) : List Char := (hexDigest (sha256 (utf8Bytes url))).take 16

/-! ## URL parsing (models urllib.parse.urlparse for the fields used:
scheme, hostname and path) -/

/-- Result of urlparse restricted to the fields the fetcher reads. -/
structure URLParts where
  scheme : String
  hostname : Option String
  path : String
deriving DecidableEq, Repr

/-- Split at the first occurrence of a character; none when absent. -/
def breakOnChar (sep : Char) : List Char → Option (List Char × List Char)
  | [] => none
  | c :: t =>
    if c == sep then some ([], t)
    else (breakOnChar sep t).map (fun p => (c :: p.1, p.2))

/-- Characters urllib accepts inside a scheme after the leading letter. -/
def isSchemeChar (c : Char) : Bool := c.isAlphanum || c == '+' || c == '-' || c == '.'

/-- Split off the scheme before the first colon, as urlparse does: the part
before the colon must be a letter followed by scheme characters, and is
lowercased; otherwise the scheme is empty and the URL is left whole. -/
def splitScheme (l : List Char) : String × List Char :=
  match breakOnChar ':' l with
  | some (pre, post) =>
    match pre with
    | [] => ("", l)
    | c0 :: _ =>
      if c0.isAlpha && pre.all isSchemeChar then (String.mk (pre.map Char.toLower), post)
      else ("", l)
  | none => ("", l)

/-- The part of the list after its last occurrence of the separator
(the whole list when the separator is absent). -/
def lastAfter (sep : Char) (l : List Char) : List Char :=
  (l.reverse.takeWhile (fun c => !(c == sep))).reverse

/-- Hostname of a netloc, as the urlparse hostname property: drop userinfo
after the last at sign, strip an IPv6 bracket pair or a port suffix,
lowercase, and return none when empty. -/
def hostnameOf (netloc : List Char) : Option String :=
  match lastAfter '@' netloc with
  | [] => none
  | '[' :: r =>
    let h := r.takeWhile (fun c => !(c == ']'))
    if h.isEmpty then none else some (String.mk (h.map Char.toLower))
  | l =>
    let h := l.takeWhile (fun c => !(c == ':'))
    if h.isEmpty then none else some (String.mk (h.map Char.toLower))

/-- urlparse model: scheme split, netloc only after a double slash, path up
to the first question mark or hash. -/
def urlparse (url : String) : URLParts :=
  let sp := splitScheme url.data
  let nlRest : List Char × List Char :=
    match sp.2 with
    | '/' :: '/' :: r =>
      let nl := r.takeWhile (fun c => !(c == '/' || c == '?' || c == '#'))
      (nl, r.drop nl.length)
    | other => ([], other)
  let path := (nlRest.2.takeWhile (fun c => !(c == '#'))).takeWhile (fun c => !(c == '?'))
  { scheme := sp.1, hostname := hostnameOf nlRest.1, path := String.mk path }

/-! ## SSRF guard (URLFetcher._is_private_ip and URLFetcher._validate_url)

The system resolver is an oracle from hostname to an optional list of
IPv4 addresses encoded as Nat values below 2^32; none models a
getaddrinfo exception (OSError). IPv4 classification follows the CPython
ipaddress module predicates used by the source. -/

/-- DNS oracle: none models a resolution failure raised by getaddrinfo. -/
abbrev Resolver := String → Option (List Nat)

/-- Membership of an IPv4 address in a network given by base and prefix bits. -/
def inNet (ip base bits : Nat) : Bool := ip / 2 ^ (32 - bits) == base / 2 ^ (32 - bits)

/-- ipaddress IPv4Address.is_loopback: 127.0.0.0/8. -/
def ipLoopback (ip : Nat) : Bool := inNet ip 2130706432 8

/-- ipaddress IPv4Address.is_link_local: 169.254.0.0/16. -/
def ipLinkLocal (ip : Nat) : Bool := inNet ip 2851995648 16

/-- ipaddress IPv4Address.is_multicast: 224.0.0.0/4. -/
def ipMulticast (ip : Nat) : Bool := inNet ip 3758096384 4

/-- ipaddress IPv4Address.is_reserved: 240.0.0.0/4. -/
def ipReserved (ip : Nat) : Bool := inNet ip 4026531840 4

/-- ipaddress IPv4Address.is_private: the CPython private network list. -/
def ipPrivate (ip : Nat) : Bool :=
  inNet ip 0 8 || inNet ip 167772160 8 || inNet ip 2130706432 8 ||
  inNet ip 2851995648 16 || inNet ip 2886729728 12 || inNet ip 3221225472 29 ||
  inNet ip 3221225642 31 || inNet ip 3221225984 24 || inNet ip 3232235520 16 ||
  inNet ip 3323068416 15 || inNet ip 3325256704 24 || inNet ip 3405803776 24 ||
  inNet ip 4026531840 4 || inNet ip 4294967295 32

/-- The disjunction tested inside the address loop of _is_private_ip. -/
def ipBlocked (ip : Nat) : Bool :=
  ipPrivate ip || ipLoopback ip || ipLinkLocal ip || ipReserved ip || ipMulticast ip

/-- URLFetcher._is_private_ip: resolve the hostname; a resolution failure
returns true (fail closed); otherwise true when any address is
private, loopback, link-local, reserved or multicast. -/
def is_private_ip (resolve : Resolver) (hostname : String) : Bool :=
  match resolve hostname with
  | none => true
  | some ips => ips.any ipBlocked

/-- The four raise sites of URLFetcher._validate_url, in source order.
The resolution-failure path and the private-address path reach the same
raise statement, so they share the privateAddress constructor. -/
inductive BlockReason where
  | badScheme (s : String)
  | noHost
  | localhostLiteral
  | privateAddress
deriving DecidableEq, Repr

/-- The literal hostname blocklist tested by string comparison. -/
def isLiteralLocalhost (h : String) : Bool :=
  h == "localhost" || h == "127.0.0.1" || h == "::1" || h == "0.0.0.0"

/-- URLFetcher._validate_url: scheme check, hostname presence, literal
localhost blocklist, then the resolver-backed private-address check. -/
def validate_url (resolve : Resolver) (url : String) : Except BlockReason Unit :=
  let parsed := urlparse url
  if !(parsed.scheme == "http" || parsed.scheme == "https") then
    .error (.badScheme parsed.scheme)
  else
    match parsed.hostname with
    | none => .error .noHost
    | some hostname =>
      if isLiteralLocalhost hostname then .error .localhostLiteral
      else if is_private_ip resolve hostname then .error .privateAddress
      else .ok ()

/-! ## Cache filename (URLFetcher._get_cache_filename) -/

/-- os.path.basename: the part of the path after its last slash. -/
def basename (p : List Char) : List Char :=
  (p.reverse.takeWhile (fun c => !(c == '/'))).reverse

/-- The character filter of the sanitizer: alphanumerics, dot, underscore
and dash survive. -/
def keepChar (c : Char) : Bool := c.isAlphanum || c == '.' || c == '_' || c == '-'

/-- Sanitize a filename by dropping every character outside the allowlist. -/
def sanitizeName (l : List Char) : List Char := l.filter keepChar

/-- URLFetcher._get_cache_filename: 16 hex digest characters, then either
an underscore and the sanitized basename when the URL path ends in .pdf,
or a literal .pdf suffix. -/
def get_cache_filename (url : String) : String :=
  let url_hash := sha256hex16 url
  let parsed := urlparse url
  if strEndsWith parsed.path (".pdf") then
    String.mk (url_hash ++ '_' :: sanitizeName (basename parsed.path.data))
  else
    String.mk (url_hash ++ ".pdf".data)

/-! ## Download cache state and lookup (URLFetcher.get_local_path)

The cache directory is modelled as the list of filenames it holds (file
contents are not needed by any claim) and the in-memory dict
_url_to_path as an association list with dict semantics. -/

def MAX_DOWNLOAD_SIZE : Nat := 100 * 1024 * 1024

def MAX_REDIRECTS : Nat := 10

/-- In-memory index lookup (dict membership plus access). -/
def dictGet : List (String × String) → String → Option String
  | [], _ => none
  | p :: rest, k => if p.1 == k then some p.2 else dictGet rest k

/-- Dict assignment: one entry per key. -/
def dictSet (d : List (String × String)) (k v : String) : List (String × String) :=
  (k, v) :: d.filter (fun p => !(p.1 == k))

/-- Path.exists on the cache directory contents. -/
def hasFile : List String → String → Bool
  | [], _ => false
  | f :: rest, fn => f == fn || hasFile rest fn

/-- Writing the assembled body: the file exists afterwards (O_CREAT with
O_TRUNC overwrites any previous version). -/
def diskWrite (files : List String) (fn : String) : List String :=
  if hasFile files fn then files else fn :: files

/-- The mutable state of a URLFetcher: cache directory contents and the
in-memory url-to-path index. -/
structure CacheState where
  files : List String
  url_to_path : List (String × String)
deriving DecidableEq, Repr

/-- The disk-probe fallback of get_local_path: derive the deterministic
filename, and on a hit backfill the in-memory index. -/
def probeDisk (st : CacheState) (url : String) : Option String × CacheState :=
  let fn := get_cache_filename url
  if hasFile st.files fn then
    (some fn, { st with url_to_path := dictSet st.url_to_path url fn })
  else (none, st)

/-- URLFetcher.get_local_path: in-memory index first (an entry whose file
is gone falls through), then the deterministic-filename disk probe. -/
def get_local_path (st : CacheState) (url : String) : Option String × CacheState :=
  match dictGet st.url_to_path url with
  | some fn => if hasFile st.files fn then (some fn, st) else probeDisk st url
  | none => probeDisk st url

/-! ## Remote fetch (URLFetcher.fetch)

The network is an oracle from URL to an abstract response. Each
client.stream call is recorded as a get event and each body read as a
readBody event, so absence of traffic is provable from the event log. -/

/-- What the transport returns for one request: a connection-level
failure (an httpx exception), a redirect with its optional resolved
next-request target, or a final response with its success flag,
optional parsed Content-Length, Content-Type header and body chunks as
delivered by iter_bytes. -/
inductive Response where
  | transportFailure
  | redirect (target : Option String)
  | success (statusOk : Bool) (contentLength : Option Nat) (contentType : String)
      (chunks : List (List Nat))
deriving DecidableEq

/-- Observable network effects of a fetch. -/
inductive Event where
  | get (url : String)
  | readBody (url : String)
deriving DecidableEq, Repr

/-- The distinct failures fetch can raise, one per raise site (blocked
wraps the ValueError raised inside _validate_url; transportError covers
the httpx exceptions, including raise_for_status). -/
inductive FetchError where
  | blocked (reason : BlockReason)
  | redirectNoTarget
  | transportError
  | tooLargeContentLength (n : Nat)
  | tooLargeStream
  | notAPDF
  | tooManyRedirects
deriving DecidableEq, Repr

/-- The iter_bytes accumulation loop: add each chunk length to the running
total and abort (none) as soon as the total exceeds the budget;
otherwise return the joined content. -/
def readChunksGo : List (List Nat) → Nat → Option (List Nat)
  | [], _ => some []
  | c :: rest, total =>
    let t := total + c.length
    if t > MAX_DOWNLOAD_SIZE then none
    else (readChunksGo rest t).map (fun r => c ++ r)

/-- Python: "pdf" in content_type.lower(). -/
def containsPdf (contentType : String) : Bool :=
  isInfixB ("pdf").data (contentType.data.map Char.toLower)

/-- The %PDF magic marker bytes. -/
def pdfMagic : List Nat := [37, 80, 68, 70]

/-- Processing of a non-redirect successful response body: stream under
the size budget, then accept when the Content-Type header mentions pdf
or the body starts with the magic marker. -/
def processBody (current : String) (contentType : String) (chunks : List (List Nat)) :
    Except FetchError (List Nat) × List Event :=
  match readChunksGo chunks 0 with
  | none => (.error .tooLargeStream, [.get current, .readBody current])
  | some content =>
    if containsPdf contentType || isPrefixB pdfMagic content then
      (.ok content, [.get current, .readBody current])
    else (.error .notAPDF, [.get current, .readBody current])

/-- The manual redirect loop of fetch: at most the given number of
requests, each hop validated before it is followed, no body read on a
redirect, header then streaming size checks, then the content-type
check. Exhausting the fuel is the for-else raise of TooManyRedirects. -/
def fetchLoop (net : String → Response) (resolve : Resolver) :
    Nat → String → Except FetchError (List Nat) × List Event
  | 0, _ => (.error .tooManyRedirects, [])
  | fuel + 1, current =>
    match net current with
    | .transportFailure => (.error .transportError, [.get current])
    | .redirect none => (.error .redirectNoTarget, [.get current])
    | .redirect (some target) =>
      match validate_url resolve target with
      | .error e => (.error (.blocked e), [.get current])
      | .ok _ =>
        let r := fetchLoop net resolve fuel target
        (r.1, .get current :: r.2)
    | .success statusOk contentLength contentType chunks =>
      if statusOk then
        match contentLength with
        | some n =>
          if n > MAX_DOWNLOAD_SIZE then (.error (.tooLargeContentLength n), [.get current])
          else processBody current contentType chunks
        | none => processBody current contentType chunks
      else (.error .transportError, [.get current])

/-- The download phase of fetch after a cache miss: run the redirect
loop; only when it returns a fully assembled and validated body is the
file (named after the original URL) written to the cache directory and
registered in the in-memory index. -/
def downloadAndStore (net : String → Response) (resolve : Resolver) (st1 : CacheState)
    (url : String) : Except FetchError String × CacheState × List Event :=
  match fetchLoop net resolve MAX_REDIRECTS url with
  | (.error e, log) => (.error e, st1, log)
  | (.ok _, log) =>
    let fn := get_cache_filename url
    (.ok fn,
     { files := diskWrite st1.files fn, url_to_path := dictSet st1.url_to_path url fn },
     log)

/-- URLFetcher.fetch: SSRF validation, cache lookup unless force_refresh,
then the manual-redirect download phase. -/
def fetch (net : String → Response) (resolve : Resolver) (st : CacheState)
    (url : String) (force_refresh : Bool) :
    Except FetchError String × CacheState × List Event :=
  match validate_url resolve url with
  | .error e => (.error (.blocked e), st, [])
  | .ok _ =>
    match (if force_refresh then ((none : Option String), st) else get_local_path st url) with
    | (some p, st1) => (.ok p, st1, [])
    | (none, st1) => downloadAndStore net resolve st1 url

/-! ## Cache maintenance (URLFetcher.clear_cache and get_cache_stats) -/

/-- A filename matched by the cache_dir.glob pattern star-dot-pdf. -/
def matchesPdfGlob (name : String) : Bool := strEndsWith name (".pdf")

/-- URLFetcher.clear_cache: try to unlink every glob match, swallowing
per-file failures (the deletable oracle says which unlinks succeed),
count only successful deletions, and clear the index unconditionally. -/
def clear_cache (deletable : String → Bool) (st : CacheState) : Nat × CacheState :=
  ((st.files.filter (fun f => matchesPdfGlob f && deletable f)).length,
   { files := st.files.filter (fun f => !(matchesPdfGlob f && deletable f)),
     url_to_path := [] })

/-- URLFetcher.get_cache_stats: file count and total byte size of the glob
matches, computed from the directory, with sizes given by a stat oracle. -/
def get_cache_stats (sizes : String → Nat) (st : CacheState) : Nat × Nat :=
  let files := st.files.filter matchesPdfGlob
  (files.length, (files.map sizes).sum)

/-- URLFetcher.is_url: a pure string-prefix classification. -/
def is_url (source : String) : Bool :=
  isPrefixB ("http://").data source.data || isPrefixB ("https://").data source.data

/-! ## Concrete oracles for witnesses and counterexamples -/

/-- The public address 93.184.216.34. -/
def pubIP : Nat := 1572395042

/-- The link-local cloud metadata address 169.254.169.254. -/
def metaIP : Nat := 2852039166

/-- A resolver mapping every hostname to the public address. -/
def resolvePublic : Resolver := fun _ => some [pubIP]

/-- Resolver for the redirect scenario: the public host and the literal
metadata address resolve; everything else fails. -/
def resolveMeta : Resolver := fun h =>
  if h == "pub.example" then some [pubIP]
  else if h == "169.254.169.254" then some [metaIP]
  else none

/-- Resolver with one resolvable private host and nothing else: used to
compare the unresolvable and the private-address outcomes. -/
def resolvePrivOnly : Resolver := fun h =>
  if h == "private.example" then some [167772161] else none

/-- Network of the metadata scenario: the public URL redirects to the
metadata address, which would serve a PDF if it were ever contacted. -/
def netMeta : String → Response := fun u =>
  if u == "http://pub.example/doc" then .redirect (some ("http://169.254.169.254/latest"))
  else if u == "http://169.254.169.254/latest" then
    .success true none ("application/pdf") [[37, 80, 68, 70]]
  else .transportFailure

/-- Build a network serving a linear redirect chain ending in the given
final response; URLs off the chain fail at the transport. -/
def mkChainNet : List String → Response → String → Response
  | [], _, _ => .transportFailure
  | [x], fin, u => if u == x then fin else .transportFailure
  | x :: y :: rest, fin, u =>
    if u == x then .redirect (some y) else mkChainNet (y :: rest) fin u

/-- A boring valid PDF response. -/
def pdfResponse : Response := .success true none ("application/pdf") [[37, 80, 68, 70]]

/-- Eleven chain URLs: following all of them takes ten redirects. -/
def chainURLs : List String :=
  ["http://h0.example/", "http://h1.example/", "http://h2.example/", "http://h3.example/",
   "http://h4.example/", "http://h5.example/", "http://h6.example/", "http://h7.example/",
   "http://h8.example/", "http://h9.example/", "http://h10.example/"]

/-- A network serving one fixed PDF document at one URL. -/
def netOnePdf : String → Response := fun u =>
  if u == "http://pub.example/doc.pdf" then pdfResponse else .transportFailure

/-! ## Supporting lemmas -/

/-- Total byte count of a chunk sequence. -/
def sumLens (chunks : List (List Nat)) : Nat := (chunks.map List.length).sum

theorem processBody_log (u ct : String) (ch : List (List Nat)) :
    (processBody u ct ch).2 = [Event.get u, Event.readBody u] := by
  unfold processBody
  cases hr : readChunksGo ch 0 with
  | none => rfl
  | some c => by_cases h : containsPdf ct || isPrefixB pdfMagic c <;> simp [h]

theorem sumLens_cons (c : List Nat) (rest : List (List Nat)) :
    sumLens (c :: rest) = c.length + sumLens rest := by
  simp [sumLens]

theorem readChunksGo_none_iff :
    ∀ (chunks : List (List Nat)) (t : Nat), t ≤ MAX_DOWNLOAD_SIZE →
      (readChunksGo chunks t = none ↔ MAX_DOWNLOAD_SIZE < t + sumLens chunks) := by
  intro chunks
  induction chunks with
  | nil =>
    intro t ht
    constructor
    · intro h; cases h
    · intro h
      exfalso
      have : sumLens ([] : List (List Nat)) = 0 := by simp [sumLens]
      omega
  | cons c rest ih =>
    intro t ht
    rw [sumLens_cons]
    by_cases h : MAX_DOWNLOAD_SIZE < t + c.length
    · have hnone : readChunksGo (c :: rest) t = none := by
        simp only [readChunksGo]
        rw [if_pos (by omega : t + c.length > MAX_DOWNLOAD_SIZE)]
      rw [hnone]
      constructor
      · intro _; omega
      · intro _; rfl
    · push_neg at h
      have hrec := ih (t + c.length) h
      have hstep : readChunksGo (c :: rest) t
          = (readChunksGo rest (t + c.length)).map (fun r => c ++ r) := by
        simp only [readChunksGo]
        rw [if_neg (by omega : ¬ t + c.length > MAX_DOWNLOAD_SIZE)]
      rw [hstep, Option.map_eq_none', hrec]
      omega

theorem length_filter_add_length_filter_not (p : String → Bool) :
    ∀ l : List String,
      (l.filter p).length + (l.filter (fun f => !(p f))).length = l.length := by
  intro l
  induction l with
  | nil => rfl
  | cons f rest ih =>
    by_cases h : p f
    · simp only [List.filter_cons, h]
      simp only [Bool.not_true, if_pos rfl]
      simp [h, List.length_cons]
      omega
    · have h' : p f = false := by simp [h]
      simp only [List.filter_cons, h']
      simp [List.length_cons]
      omega

theorem length_filter_and_le (p q : String → Bool) (l : List String) :
    (l.filter (fun f => p f && q f)).length ≤ (l.filter p).length := by
  induction l with
  | nil => simp
  | cons f rest ih =>
    by_cases hp : p f
    · by_cases hq : q f
      · simp [List.filter_cons, hp, hq]; omega
      · simp [List.filter_cons, hp, hq]; omega
    · simp [List.filter_cons, hp]; omega

theorem dictGet_dictSet (d : List (String × String)) (k v : String) :
    dictGet (dictSet d k v) k = some v := by
  simp [dictSet, dictGet]

theorem hasFile_diskWrite (files : List String) (fn : String) :
    hasFile (diskWrite files fn) fn = true := by
  unfold diskWrite
  by_cases h : hasFile files fn
  · simp [h]
  · simp [h, hasFile]

theorem probeDisk_none (st : CacheState) (url : String) :
    (probeDisk st url).1 = none → (probeDisk st url).2 = st := by
  unfold probeDisk
  by_cases hf : hasFile st.files (get_cache_filename url) <;> simp [hf]

theorem probeDisk_some (st : CacheState) (url : String) (p : String) :
    (probeDisk st url).1 = some p →
      dictGet (probeDisk st url).2.url_to_path url = some p ∧
      hasFile (probeDisk st url).2.files p = true ∧
      (probeDisk st url).2.files = st.files := by
  unfold probeDisk
  by_cases hf : hasFile st.files (get_cache_filename url) <;> simp [hf]
  intro hp
  subst hp
  exact ⟨dictGet_dictSet _ _ _, hf⟩

theorem get_local_path_none (st : CacheState) (url : String) :
    (get_local_path st url).1 = none → (get_local_path st url).2 = st := by
  unfold get_local_path
  cases hd : dictGet st.url_to_path url with
  | none => exact probeDisk_none st url
  | some fn =>
    by_cases hf : hasFile st.files fn
    · simp [hf]
    · simp [hf]
      exact probeDisk_none st url

theorem get_local_path_some (st : CacheState) (url : String) (p : String) :
    (get_local_path st url).1 = some p →
      dictGet (get_local_path st url).2.url_to_path url = some p ∧
      hasFile (get_local_path st url).2.files p = true ∧
      (get_local_path st url).2.files = st.files := by
  unfold get_local_path
  cases hd : dictGet st.url_to_path url with
  | none => exact probeDisk_some st url p
  | some fn =>
    by_cases hf : hasFile st.files fn
    · simp [hf]
      intro hp
      subst hp
      exact ⟨hd, hf⟩
    · simp [hf]
      exact probeDisk_some st url p

theorem downloadAndStore_error_state (net : String → Response) (resolve : Resolver)
    (st1 : CacheState) (url : String) (e : FetchError) :
    (downloadAndStore net resolve st1 url).1 = .error e →
      (downloadAndStore net resolve st1 url).2.1 = st1 := by
  unfold downloadAndStore
  rcases hl : fetchLoop net resolve MAX_REDIRECTS url with ⟨r, log⟩
  cases r <;> simp

theorem downloadAndStore_ok (net : String → Response) (resolve : Resolver)
    (st1 : CacheState) (url : String) (p : String) :
    (downloadAndStore net resolve st1 url).1 = .ok p →
      p = get_cache_filename url ∧
      (downloadAndStore net resolve st1 url).2.1
        = { files := diskWrite st1.files (get_cache_filename url),
            url_to_path := dictSet st1.url_to_path url (get_cache_filename url) } := by
  unfold downloadAndStore
  rcases hl : fetchLoop net resolve MAX_REDIRECTS url with ⟨r, log⟩
  cases r <;> simp
  intro hp
  exact hp.symm

/-- Claim C9: clear_cache never fails as a whole: it is a total function
that deletes exactly the deletable glob matches (counting exactly
those), leaves the protected files in place, clears the in-memory index
unconditionally, and on the concrete directory with three deletable
files and one undeletable file returns 3. -/
theorem clear_cache_best_effort (deletable : String → Bool) (st : CacheState) :
    (clear_cache deletable st).2.url_to_path = [] ∧
    (clear_cache deletable st).1 =
      (st.files.filter (fun f => matchesPdfGlob f && deletable f)).length ∧
    (clear_cache deletable st).1 + (clear_cache deletable st).2.files.length
      = st.files.length ∧
    (clear_cache deletable st).1 ≤ (st.files.filter matchesPdfGlob).length ∧
    (∀ f, f ∈ st.files → matchesPdfGlob f = true → deletable f = true →
      f ∉ (clear_cache deletable st).2.files) ∧
    clear_cache (fun f => !(f == "d.pdf"))
        ⟨["a.pdf", "b.pdf", "c.pdf", "d.pdf"], [("u", "a.pdf")]⟩
      = (3, ⟨["d.pdf"], []⟩) := by
  refine ⟨rfl, rfl, ?_, ?_, ?_, by decide⟩
  · exact length_filter_add_length_filter_not (fun f => matchesPdfGlob f && deletable f) st.files
  · exact length_filter_and_le matchesPdfGlob deletable st.files
  · intro f hmem hg hd
    simp only [clear_cache, List.mem_filter]
    intro hcon
    simp [hg, hd] at hcon

/-- On a non-redirect successful response whose declared length is within
the budget, the loop iteration is exactly the body-processing phase. -/
theorem fetchLoop_success_processBody (net : String → Response) (resolve : Resolver)
    (fuel : Nat) (u : String) (clen : Option Nat) (ctype : String)
    (chunks : List (List Nat))
    (hnet : net u = .success true clen ctype chunks)
    (hlen : ∀ n, clen = some n → n ≤ MAX_DOWNLOAD_SIZE) :
    fetchLoop net resolve (fuel + 1) u = processBody u ctype chunks := by
  simp only [fetchLoop, hnet]
  cases clen with
  | none => simp
  | some n =>
    have hn := hlen n rfl
    simp [show ¬ n > MAX_DOWNLOAD_SIZE by omega]

/-- Claim C5: for a non-redirect successful response within the size
budget, the content is accepted exactly when the Content-Type header
contains pdf (the check is case-insensitive, operating on the lowercased
header) or the body starts with the literal %PDF marker; when both
checks fail the fetch fails with NotAPDF. -/
theorem fetch_pdf_check (net : String → Response) (resolve : Resolver)
    (fuel : Nat) (u : String) (clen : Option Nat) (ctype : String)
    (chunks : List (List Nat)) (content : List Nat)
    (hnet : net u = .success true clen ctype chunks)
    (hlen : ∀ n, clen = some n → n ≤ MAX_DOWNLOAD_SIZE)
    (hread : readChunksGo chunks 0 = some content) :
    ((fetchLoop net resolve (fuel + 1) u).1 = .ok content ↔
      (containsPdf ctype = true ∨ isPrefixB pdfMagic content = true)) ∧
    (containsPdf ctype = false → isPrefixB pdfMagic content = false →
      (fetchLoop net resolve (fuel + 1) u).1 = .error .notAPDF) := by
  rw [fetchLoop_success_processBody net resolve fuel u clen ctype chunks hnet hlen]
  cases hc : containsPdf ctype <;> cases hp : isPrefixB pdfMagic content <;>
    simp [processBody, hread, hc, hp]

/-- Claim C3: the download budget is 100 MiB and is enforced twice: a
declared Content-Length above the budget fails with the too-large error
with no body-read event at all, and an absent or understated header is
caught by the streaming accumulator as soon as the chunk total passes
the budget. -/
theorem fetch_size_budget :
    MAX_DOWNLOAD_SIZE = 104857600 ∧
    (∀ (net : String → Response) (resolve : Resolver) (fuel : Nat) (u : String)
       (n : Nat) (ctype : String) (chunks : List (List Nat)),
       net u = .success true (some n) ctype chunks → MAX_DOWNLOAD_SIZE < n →
       fetchLoop net resolve (fuel + 1) u
         = (.error (.tooLargeContentLength n), [.get u])) ∧
    (∀ (net : String → Response) (resolve : Resolver) (fuel : Nat) (u : String)
       (clen : Option Nat) (ctype : String) (chunks : List (List Nat)),
       net u = .success true clen ctype chunks →
       (∀ n, clen = some n → n ≤ MAX_DOWNLOAD_SIZE) →
       MAX_DOWNLOAD_SIZE < sumLens chunks →
       fetchLoop net resolve (fuel + 1) u
         = (.error .tooLargeStream, [.get u, .readBody u])) := by
  refine ⟨rfl, ?_, ?_⟩
  · intro net resolve fuel u n ctype chunks hnet hn
    simp only [fetchLoop, hnet]
    simp [show n > MAX_DOWNLOAD_SIZE by omega]
  · intro net resolve fuel u clen ctype chunks hnet hlen hsum
    rw [fetchLoop_success_processBody net resolve fuel u clen ctype chunks hnet hlen]
    have hnone : readChunksGo chunks 0 = none :=
      (readChunksGo_none_iff chunks 0 (by omega)).mpr (by omega)
    unfold processBody
    rw [hnone]

theorem fetch_error_state (net : String → Response) (resolve : Resolver) (st : CacheState)
    (url : String) (fr : Bool) (e : FetchError) :
    (fetch net resolve st url fr).1 = .error e → (fetch net resolve st url fr).2.1 = st := by
  unfold fetch
  cases hv : validate_url resolve url with
  | error b => intro _; rfl
  | ok _ =>
    cases fr with
    | true =>
      rw [if_pos rfl]
      exact downloadAndStore_error_state net resolve st url e
    | false =>
      rw [if_neg Bool.false_ne_true]
      rcases hgl : get_local_path st url with ⟨o, st1⟩
      have hst1 : o = none → st1 = st := by
        intro ho
        have h1 : (get_local_path st url).1 = none := by rw [hgl, ho]
        have h2 := get_local_path_none st url h1
        rw [hgl] at h2
        exact h2
      cases o with
      | some p => intro h; cases h
      | none =>
        intro h
        rw [downloadAndStore_error_state net resolve st1 url e h]
        exact hst1 rfl

theorem fetch_ok_validate (net : String → Response) (resolve : Resolver) (st : CacheState)
    (url : String) (fr : Bool) (p : String) :
    (fetch net resolve st url fr).1 = .ok p → validate_url resolve url = .ok () := by
  unfold fetch
  cases hv : validate_url resolve url with
  | error b => intro h; cases h
  | ok v => intro _; rfl

theorem fetch_ok_registered (net : String → Response) (resolve : Resolver) (st : CacheState)
    (url : String) (fr : Bool) (p : String) :
    (fetch net resolve st url fr).1 = .ok p →
      dictGet (fetch net resolve st url fr).2.1.url_to_path url = some p ∧
      hasFile (fetch net resolve st url fr).2.1.files p = true := by
  unfold fetch
  cases hv : validate_url resolve url with
  | error b => intro h; cases h
  | ok _ =>
    have hdl : ∀ st1 : CacheState,
        (downloadAndStore net resolve st1 url).1 = .ok p →
        dictGet (downloadAndStore net resolve st1 url).2.1.url_to_path url = some p ∧
        hasFile (downloadAndStore net resolve st1 url).2.1.files p = true := by
      intro st1 h
      obtain ⟨hp, hst⟩ := downloadAndStore_ok net resolve st1 url p h
      rw [hst, hp]
      exact ⟨dictGet_dictSet _ _ _, hasFile_diskWrite _ _⟩
    cases fr with
    | true =>
      rw [if_pos rfl]
      exact hdl st
    | false =>
      rw [if_neg Bool.false_ne_true]
      rcases hgl : get_local_path st url with ⟨o, st1⟩
      cases o with
      | some q =>
        intro h
        have hq : q = p := by cases h; rfl
        subst hq
        have h1 : (get_local_path st url).1 = some q := by rw [hgl]
        have h2 := get_local_path_some st url q h1
        rw [hgl] at h2
        exact ⟨h2.1, h2.2.1⟩
      | none => exact hdl st1

/-- Claim C8: fetch is atomic with respect to the cache: every failure
(guard, transport, header or streaming size, content-type, redirect cap)
leaves the cache state exactly as it was — the file write and the index
registration happen only after the full body has been assembled and
validated, and then the returned path is both registered and on disk. -/
theorem fetch_atomic (net : String → Response) (resolve : Resolver) (st : CacheState)
    (url : String) (fr : Bool) :
    (∀ e, (fetch net resolve st url fr).1 = .error e →
      (fetch net resolve st url fr).2.1 = st) ∧
    (∀ p, (fetch net resolve st url fr).1 = .ok p →
      dictGet (fetch net resolve st url fr).2.1.url_to_path url = some p ∧
      hasFile (fetch net resolve st url fr).2.1.files p = true) :=
  ⟨fun e => fetch_error_state net resolve st url fr e,
   fun p => fetch_ok_registered net resolve st url fr p⟩

theorem fetch_cached_hit (net : String → Response) (resolve : Resolver) (st : CacheState)
    (url : String) (p : String)
    (hv : validate_url resolve url = .ok ())
    (hd : dictGet st.url_to_path url = some p)
    (hf : hasFile st.files p = true) :
    fetch net resolve st url false = (.ok p, st, []) := by
  have hgl : get_local_path st url = (some p, st) := by
    unfold get_local_path
    rw [hd]
    simp [hf]
  unfold fetch
  rw [hv, if_neg Bool.false_ne_true, hgl]

theorem processBody_log_head (u ct : String) (ch : List (List Nat)) :
    ∃ t, (processBody u ct ch).2 = Event.get u :: t :=
  ⟨[Event.readBody u], processBody_log u ct ch⟩

theorem fetchLoop_log_head (net : String → Response) (resolve : Resolver)
    (fuel : Nat) (u : String) :
    ∃ t, (fetchLoop net resolve (fuel + 1) u).2 = Event.get u :: t := by
  simp only [fetchLoop]
  split
  · exact ⟨[], rfl⟩
  · exact ⟨[], rfl⟩
  · split
    · exact ⟨[], rfl⟩
    · exact ⟨_, rfl⟩
  · split
    · split
      · split
        · exact ⟨[], rfl⟩
        · exact processBody_log_head _ _ _
      · exact processBody_log_head _ _ _
    · exact ⟨[], rfl⟩

theorem downloadAndStore_log (net : String → Response) (resolve : Resolver)
    (st1 : CacheState) (url : String) :
    (downloadAndStore net resolve st1 url).2.2 = (fetchLoop net resolve MAX_REDIRECTS url).2 := by
  unfold downloadAndStore
  rcases hl : fetchLoop net resolve MAX_REDIRECTS url with ⟨r, log⟩
  cases r <;> rfl

/-- Claim C4: fetch is idempotent with respect to the network: after a
successful fetch, a second fetch of the same URL without force_refresh
returns the same cached path, leaves the state untouched and produces an
empty network event log; with force_refresh the second call opens a new
connection (its log starts with a get of the URL); and a stale index
entry whose file is gone, with nothing on disk either, makes the lookup
a silent miss that leaves the state unchanged rather than an error. -/
theorem fetch_idempotent (net : String → Response) (resolve : Resolver)
    (st : CacheState) (url : String) (p : String) (st1 : CacheState) (log : List Event)
    (h : fetch net resolve st url false = (.ok p, st1, log)) :
    fetch net resolve st1 url false = (.ok p, st1, []) ∧
    (∃ t, (fetch net resolve st1 url true).2.2 = Event.get url :: t) ∧
    (∀ (st' : CacheState) (fn : String), dictGet st'.url_to_path url = some fn →
      hasFile st'.files fn = false →
      hasFile st'.files (get_cache_filename url) = false →
      get_local_path st' url = (none, st')) := by
  have h1 : (fetch net resolve st url false).1 = .ok p := by rw [h]
  have h21 : (fetch net resolve st url false).2.1 = st1 := by rw [h]
  have hv : validate_url resolve url = .ok () := fetch_ok_validate net resolve st url false p h1
  have hreg := fetch_ok_registered net resolve st url false p h1
  rw [h21] at hreg
  refine ⟨fetch_cached_hit net resolve st1 url p hv hreg.1 hreg.2, ?_, ?_⟩
  · have hfr : fetch net resolve st1 url true = downloadAndStore net resolve st1 url := by
      unfold fetch
      rw [hv, if_pos rfl]
    rw [hfr, downloadAndStore_log]
    have h10 : MAX_REDIRECTS = 9 + 1 := rfl
    rw [h10]
    exact fetchLoop_log_head net resolve 9 url
  · intro st' fn hd hf hfcanon
    unfold get_local_path
    rw [hd]
    simp only [hf, Bool.false_eq_true, if_neg, if_false]
    unfold probeDisk
    simp [hfcanon]

/-- Every URL a loop run sends a request to was validated: either it is
the (already validated) entry URL or it passed the guard as a redirect
target before being followed. -/
theorem fetchLoop_get_validated (net : String → Response) (resolve : Resolver) :
    ∀ (fuel : Nat) (current : String), validate_url resolve current = .ok () →
      ∀ u, Event.get u ∈ (fetchLoop net resolve fuel current).2 →
        validate_url resolve u = .ok () := by
  intro fuel
  induction fuel with
  | zero =>
    intro current _ u hmem
    simp [fetchLoop] at hmem
  | succ fuel ih =>
    intro current hcur u hmem
    cases hn : net current with
    | transportFailure =>
      simp only [fetchLoop, hn] at hmem
      simp at hmem
      rw [hmem]; exact hcur
    | redirect target =>
      cases target with
      | none =>
        simp only [fetchLoop, hn] at hmem
        simp at hmem
        rw [hmem]; exact hcur
      | some t2 =>
        cases hv : validate_url resolve t2 with
        | error e =>
          simp only [fetchLoop, hn, hv] at hmem
          simp at hmem
          rw [hmem]; exact hcur
        | ok a =>
          simp only [fetchLoop, hn, hv, List.mem_cons] at hmem
          rcases hmem with hmem | hmem
          · simp at hmem
            rw [hmem]; exact hcur
          · exact ih t2 hv u hmem
    | success s c t ch =>
      cases s with
      | false =>
        simp only [fetchLoop, hn] at hmem
        simp at hmem
        rw [hmem]; exact hcur
      | true =>
        cases c with
        | some n =>
          by_cases h2 : n > MAX_DOWNLOAD_SIZE
          · simp only [fetchLoop, hn] at hmem
            simp [h2] at hmem
            rw [hmem]; exact hcur
          · rw [fetchLoop_success_processBody net resolve fuel current (some n) t ch hn
                (fun m hm => by cases hm; omega), processBody_log] at hmem
            simp at hmem
            rw [hmem]; exact hcur
        | none =>
          rw [fetchLoop_success_processBody net resolve fuel current none t ch hn
              (fun m hm => by cases hm), processBody_log] at hmem
          simp at hmem
          rw [hmem]; exact hcur

/-- A body is only ever read from a URL whose response is a non-redirect
success: redirect hops never contribute a readBody event. -/
theorem fetchLoop_readBody_success (net : String → Response) (resolve : Resolver) :
    ∀ (fuel : Nat) (current u : String),
      Event.readBody u ∈ (fetchLoop net resolve fuel current).2 →
      ∃ s c t ch, net u = Response.success s c t ch := by
  intro fuel
  induction fuel with
  | zero =>
    intro current u hmem
    simp [fetchLoop] at hmem
  | succ fuel ih =>
    intro current u hmem
    cases hn : net current with
    | transportFailure =>
      simp only [fetchLoop, hn] at hmem
      simp at hmem
    | redirect target =>
      cases target with
      | none =>
        simp only [fetchLoop, hn] at hmem
        simp at hmem
      | some t2 =>
        cases hv : validate_url resolve t2 with
        | error e =>
          simp only [fetchLoop, hn, hv] at hmem
          simp at hmem
        | ok a =>
          simp only [fetchLoop, hn, hv, List.mem_cons] at hmem
          rcases hmem with hmem | hmem
          · simp at hmem
          · exact ih t2 u hmem
    | success s c t ch =>
      cases s with
      | false =>
        simp only [fetchLoop, hn] at hmem
        simp at hmem
      | true =>
        cases c with
        | some n =>
          by_cases h2 : n > MAX_DOWNLOAD_SIZE
          · simp only [fetchLoop, hn] at hmem
            simp [h2] at hmem
          · rw [fetchLoop_success_processBody net resolve fuel current (some n) t ch hn
                (fun m hm => by cases hm; omega), processBody_log] at hmem
            simp at hmem
            exact ⟨true, some n, t, ch, by rw [hmem]; exact hn⟩
        | none =>
          rw [fetchLoop_success_processBody net resolve fuel current none t ch hn
              (fun m hm => by cases hm), processBody_log] at hmem
          simp at hmem
          exact ⟨true, none, t, ch, by rw [hmem]; exact hn⟩

/-- The network log of a fetch is empty (guard failure or cache hit) or
is exactly the log of one redirect-loop run over a validated entry URL. -/
theorem fetch_log_spec (net : String → Response) (resolve : Resolver) (st : CacheState)
    (url : String) (fr : Bool) :
    (fetch net resolve st url fr).2.2 = [] ∨
    (validate_url resolve url = .ok () ∧
     (fetch net resolve st url fr).2.2 = (fetchLoop net resolve MAX_REDIRECTS url).2) := by
  unfold fetch
  cases hv : validate_url resolve url with
  | error b => exact Or.inl rfl
  | ok a =>
    cases fr with
    | true =>
      rw [if_pos rfl]
      exact Or.inr ⟨rfl, downloadAndStore_log net resolve st url⟩
    | false =>
      rw [if_neg Bool.false_ne_true]
      rcases hgl : get_local_path st url with ⟨o, st1⟩
      cases o with
      | some p => exact Or.inl rfl
      | none => exact Or.inr ⟨rfl, downloadAndStore_log net resolve st1 url⟩

/-- Claim C1: redirect hops are validated before being followed: every
URL a fetch connects to has passed the SSRF guard; no body is read from
any URL that answers with a redirect; a guard failure on a redirect
target aborts the whole fetch with the blocked error right after the
single request to the redirecting hop; and concretely a chain that
starts at a public host and redirects to 169.254.169.254 fails with the
private-address BlockedURL even though its first hop alone validates. -/
theorem fetch_validates_every_hop (net : String → Response) (resolve : Resolver)
    (st : CacheState) (url : String) (fr : Bool) :
    (∀ u, Event.get u ∈ (fetch net resolve st url fr).2.2 →
      validate_url resolve u = .ok ()) ∧
    (∀ u t, net u = .redirect t → Event.readBody u ∉ (fetch net resolve st url fr).2.2) ∧
    (∀ (fuel : Nat) (current target : String) (e : BlockReason),
      net current = .redirect (some target) → validate_url resolve target = .error e →
      fetchLoop net resolve (fuel + 1) current = (.error (.blocked e), [.get current])) ∧
    (validate_url resolveMeta ("http://pub.example/doc") = .ok () ∧
     fetch netMeta resolveMeta ⟨[], []⟩ "http://pub.example/doc" false
       = (.error (.blocked .privateAddress), ⟨[], []⟩, [.get ("http://pub.example/doc")])) := by
  refine ⟨?_, ?_, ?_, by decide, by decide⟩
  · intro u hmem
    rcases fetch_log_spec net resolve st url fr with hlog | ⟨hv, hlog⟩
    · rw [hlog] at hmem
      cases hmem
    · rw [hlog] at hmem
      exact fetchLoop_get_validated net resolve MAX_REDIRECTS url hv u hmem
  · intro u t hredir hmem
    rcases fetch_log_spec net resolve st url fr with hlog | ⟨hv, hlog⟩
    · rw [hlog] at hmem
      cases hmem
    · rw [hlog] at hmem
      obtain ⟨s, c, ct, ch, hs⟩ := fetchLoop_readBody_success net resolve MAX_REDIRECTS url u hmem
      rw [hredir] at hs
      cases hs
  · intro fuel current target e hn hv
    simp only [fetchLoop, hn, hv]

/-- Witness for claim C1 at the concrete metadata-redirect scenario. -/
theorem fetch_validates_every_hop_witness :
    fetchLoop netMeta resolveMeta (9 + 1) "http://pub.example/doc"
      = (.error (.blocked .privateAddress), [.get ("http://pub.example/doc")]) :=
  (fetch_validates_every_hop netMeta resolveMeta ⟨[], []⟩ "http://pub.example/doc" false).2.2.1
    9 ("http://pub.example/doc") "http://169.254.169.254/latest" .privateAddress
    (by decide) (by decide)

/-- Number of requests (client.stream calls) recorded in a log. -/
def countGets (log : List Event) : Nat :=
  (log.filter (fun e => match e with | .get _ => true | .readBody _ => false)).length

theorem countGets_cons_get (u : String) (t : List Event) :
    countGets (Event.get u :: t) = countGets t + 1 := by
  simp [countGets, List.filter_cons]

theorem countGets_le_of_sub (u : String) (t : List Event) (fuel : Nat)
    (h : countGets t ≤ fuel) : countGets (Event.get u :: t) ≤ fuel + 1 := by
  rw [countGets_cons_get]
  omega

/-- The loop with a given fuel issues at most that many requests. -/
theorem fetchLoop_request_bound (net : String → Response) (resolve : Resolver) :
    ∀ (fuel : Nat) (u : String), countGets (fetchLoop net resolve fuel u).2 ≤ fuel := by
  intro fuel
  induction fuel with
  | zero => intro u; simp [fetchLoop, countGets]
  | succ fuel ih =>
    intro u
    simp only [fetchLoop]
    split
    · simp [countGets, List.filter_cons]
    · simp [countGets, List.filter_cons]
    · split
      · simp [countGets, List.filter_cons]
      · exact countGets_le_of_sub u _ fuel (ih _)
    · split
      · split
        · split
          · simp [countGets, List.filter_cons]
          · rw [processBody_log]
            simp [countGets, List.filter_cons]
        · rw [processBody_log]
          simp [countGets, List.filter_cons]
      · simp [countGets, List.filter_cons]

/-- Claim C6 (amended): redirects are followed manually, one hop per loop
iteration, under the cap constant 10, and a loop run with a given fuel
issues at most that many requests; concretely a chain of nine redirect
hops that then reaches a PDF succeeds, while a chain of ten redirect
hops that would then reach a PDF is already cut off with
TooManyRedirects — the cap bounds total requests, so at most nine
redirect hops can be followed, not ten. -/
theorem redirect_cap :
    MAX_REDIRECTS = 10 ∧
    (∀ (net : String → Response) (resolve : Resolver) (fuel : Nat) (u : String),
      countGets (fetchLoop net resolve fuel u).2 ≤ fuel) ∧
    (fetch (mkChainNet (chainURLs.take 10) pdfResponse) resolvePublic ⟨[], []⟩
        "http://h0.example/" false).1 = .ok (get_cache_filename ("http://h0.example/")) ∧
    (fetch (mkChainNet chainURLs pdfResponse) resolvePublic ⟨[], []⟩
        "http://h0.example/" false).1 = .error .tooManyRedirects :=
  ⟨rfl, fetchLoop_request_bound, by decide, by decide⟩

/-- Claim C6 counterexample: this network serves a redirect chain of
exactly ten hops and then a valid PDF, yet the fetch does not succeed:
it is cut off with TooManyRedirects, refuting the reading that a chain
of up to ten hops reaching a non-redirect response succeeds. -/
theorem redirect_cap_counterexample :
    mkChainNet chainURLs pdfResponse ("http://h0.example/")
      = .redirect (some ("http://h1.example/")) ∧
    mkChainNet chainURLs pdfResponse ("http://h1.example/")
      = .redirect (some ("http://h2.example/")) ∧
    mkChainNet chainURLs pdfResponse ("http://h2.example/")
      = .redirect (some ("http://h3.example/")) ∧
    mkChainNet chainURLs pdfResponse ("http://h3.example/")
      = .redirect (some ("http://h4.example/")) ∧
    mkChainNet chainURLs pdfResponse ("http://h4.example/")
      = .redirect (some ("http://h5.example/")) ∧
    mkChainNet chainURLs pdfResponse ("http://h5.example/")
      = .redirect (some ("http://h6.example/")) ∧
    mkChainNet chainURLs pdfResponse ("http://h6.example/")
      = .redirect (some ("http://h7.example/")) ∧
    mkChainNet chainURLs pdfResponse ("http://h7.example/")
      = .redirect (some ("http://h8.example/")) ∧
    mkChainNet chainURLs pdfResponse ("http://h8.example/")
      = .redirect (some ("http://h9.example/")) ∧
    mkChainNet chainURLs pdfResponse ("http://h9.example/")
      = .redirect (some ("http://h10.example/")) ∧
    mkChainNet chainURLs pdfResponse ("http://h10.example/") = pdfResponse ∧
    (fetch (mkChainNet chainURLs pdfResponse) resolvePublic ⟨[], []⟩
        "http://h0.example/" false).1 = .error .tooManyRedirects := by
  decide

/-- Claim C2 (amended): URL validation applies its rules in source order
and fails closed: a scheme outside http and https fails with the scheme
error carrying that scheme; a missing hostname fails with the no-host
error; the literal hostnames localhost, 127.0.0.1, ::1 and 0.0.0.0 are
rejected by string match without consulting the resolver (the outcome is
identical under every resolver); a hostname whose resolution fails is
blocked with the same private-address error that a privately-resolving
hostname receives (the code does not emit a distinct unresolvable
error); a hostname with any private, loopback, link-local, reserved or
multicast address is blocked with the private-address error; and a URL
whose every resolved address is outside those classes is accepted. -/
theorem validate_url_rules (resolve r2 : Resolver) (url : String) :
    (¬((urlparse url).scheme = "http" ∨ (urlparse url).scheme = "https") →
      validate_url resolve url = .error (.badScheme (urlparse url).scheme)) ∧
    (((urlparse url).scheme = "http" ∨ (urlparse url).scheme = "https") →
      (urlparse url).hostname = none → validate_url resolve url = .error .noHost) ∧
    (∀ h, ((urlparse url).scheme = "http" ∨ (urlparse url).scheme = "https") →
      (urlparse url).hostname = some h → isLiteralLocalhost h = true →
      validate_url resolve url = .error .localhostLiteral ∧
      validate_url resolve url = validate_url r2 url) ∧
    (∀ h, ((urlparse url).scheme = "http" ∨ (urlparse url).scheme = "https") →
      (urlparse url).hostname = some h → isLiteralLocalhost h = false →
      resolve h = none → validate_url resolve url = .error .privateAddress) ∧
    (∀ h ips, ((urlparse url).scheme = "http" ∨ (urlparse url).scheme = "https") →
      (urlparse url).hostname = some h → isLiteralLocalhost h = false →
      resolve h = some ips → ips.any ipBlocked = true →
      validate_url resolve url = .error .privateAddress) ∧
    (∀ h ips, ((urlparse url).scheme = "http" ∨ (urlparse url).scheme = "https") →
      (urlparse url).hostname = some h → isLiteralLocalhost h = false →
      resolve h = some ips → ips.any ipBlocked = false →
      validate_url resolve url = .ok ()) := by
  refine ⟨?_, ?_, ?_, ?_, ?_, ?_⟩
  · intro hs
    push_neg at hs
    simp [validate_url, hs.1, hs.2]
  · intro hs hh
    rcases hs with hs | hs <;> simp [validate_url, hs, hh]
  · intro h hs hh hl
    constructor
    · rcases hs with hs | hs <;> simp [validate_url, hs, hh, hl]
    · rcases hs with hs | hs <;> simp [validate_url, hs, hh, hl]
  · intro h hs hh hl hr
    rcases hs with hs | hs <;>
      simp [validate_url, hs, hh, hl, is_private_ip, hr]
  · intro h ips hs hh hl hr hb
    rcases hs with hs | hs <;>
      simp [validate_url, hs, hh, hl, is_private_ip, hr, hb]
  · intro h ips hs hh hl hr hb
    rcases hs with hs | hs <;>
      simp [validate_url, hs, hh, hl, is_private_ip, hr, hb]

/-- Claim C2 counterexample: the unresolvable host and the privately
resolving host produce the very same error value: the code has no
distinct unresolvable outcome, so resolution failure is not reported as
a separate BlockedURL(unresolvable). -/
theorem validate_url_unresolvable_counterexample :
    resolvePrivOnly ("unresolvable.example") = none ∧
    resolvePrivOnly ("private.example") = some [167772161] ∧
    validate_url resolvePrivOnly ("http://unresolvable.example/") = .error .privateAddress ∧
    validate_url resolvePrivOnly ("http://private.example/") = .error .privateAddress ∧
    validate_url resolvePrivOnly ("http://unresolvable.example/")
      = validate_url resolvePrivOnly ("http://private.example/") := by
  decide

/-- Witness for claim C2, exercising each rule at a concrete URL. -/
theorem validate_url_rules_witness :
    validate_url resolvePublic ("ftp://example.com/x") = .error (.badScheme ("ftp")) ∧
    validate_url resolvePublic ("http://localhost/x") = .error .localhostLiteral ∧
    validate_url resolvePublic ("http://localhost/x")
      = validate_url resolvePrivOnly ("http://localhost/x") ∧
    validate_url resolvePrivOnly ("http://unresolvable.example/") = .error .privateAddress ∧
    validate_url resolvePrivOnly ("http://private.example/") = .error .privateAddress ∧
    validate_url resolvePublic ("http://example.com/x") = .ok () := by
  have w1 := (validate_url_rules resolvePublic resolvePublic ("ftp://example.com/x")).1
    (by decide)
  have w2 := (validate_url_rules resolvePublic resolvePrivOnly ("http://localhost/x")).2.2.1
    "localhost" (by decide) (by decide) (by decide)
  have w3 := (validate_url_rules resolvePrivOnly resolvePublic
    "http://unresolvable.example/").2.2.2.1 ("unresolvable.example")
    (by decide) (by decide) (by decide) (by decide)
  have w4 := (validate_url_rules resolvePrivOnly resolvePublic
    "http://private.example/").2.2.2.2.1 ("private.example") [167772161]
    (by decide) (by decide) (by decide) (by decide) (by decide)
  have w5 := (validate_url_rules resolvePublic resolvePublic
    "http://example.com/x").2.2.2.2.2 ("example.com") [pubIP]
    (by decide) (by decide) (by decide) (by decide) (by decide)
  exact ⟨w1, w2.1, w2.2, w3, w4, w5⟩

/-- A response declaring one byte more than the budget. -/
def netBigHeader : String → Response := fun _ =>
  .success true (some 104857601) "application/pdf" []

/-- A response with no Content-Length whose body exceeds the budget. -/
def netBigBody : String → Response := fun _ =>
  .success true none ("application/pdf") [List.replicate 104857601 37]

/-- Witness for claim C3: the header case fails with no body-read event,
and the streaming case fails after reading. -/
theorem fetch_size_budget_witness :
    fetchLoop netBigHeader resolvePublic (9 + 1) "http://pub.example/big.pdf"
      = (.error (.tooLargeContentLength 104857601), [.get ("http://pub.example/big.pdf")]) ∧
    fetchLoop netBigBody resolvePublic (9 + 1) "http://pub.example/big.pdf"
      = (.error .tooLargeStream,
         [.get ("http://pub.example/big.pdf"), .readBody ("http://pub.example/big.pdf")]) := by
  constructor
  · exact fetch_size_budget.2.1 netBigHeader resolvePublic 9 ("http://pub.example/big.pdf")
      104857601 ("application/pdf") [] rfl (by decide)
  · refine fetch_size_budget.2.2 netBigBody resolvePublic 9 ("http://pub.example/big.pdf")
      none ("application/pdf") [List.replicate 104857601 37] rfl (fun n h => by cases h) ?_
    have hs : sumLens [List.replicate 104857601 37] = 104857601 := by
      show (List.map List.length [List.replicate 104857601 37]).sum = 104857601
      rw [List.map_cons, List.map_nil, List.length_replicate, List.sum_cons, List.sum_nil,
        Nat.add_zero]
    rw [hs]
    decide

/-- A non-PDF content type over a body that carries the magic marker. -/
def netHtmlMagic : String → Response := fun _ =>
  .success true none ("text/html") [[37, 80], [68, 70]]

/-- A non-PDF content type over a body without the magic marker. -/
def netHtmlText : String → Response := fun _ =>
  .success true none ("text/html") [[104, 105]]

/-- Witness for claim C5: magic bytes rescue a wrong header, and when
both checks fail the fetch fails with NotAPDF. -/
theorem fetch_pdf_check_witness :
    (fetchLoop netHtmlMagic resolvePublic (9 + 1) "http://pub.example/f").1
      = .ok [37, 80, 68, 70] ∧
    (fetchLoop netHtmlText resolvePublic (9 + 1) "http://pub.example/f").1
      = .error .notAPDF := by
  constructor
  · exact (fetch_pdf_check netHtmlMagic resolvePublic 9 ("http://pub.example/f") none
      "text/html" [[37, 80], [68, 70]] [37, 80, 68, 70] rfl (fun n h => by cases h)
      (by decide)).1.mpr (Or.inr (by decide))
  · exact (fetch_pdf_check netHtmlText resolvePublic 9 ("http://pub.example/f") none
      "text/html" [[104, 105]] [104, 105] rfl (fun n h => by cases h)
      (by decide)).2 (by decide) (by decide)

/-- Witness for claim C8: a blocked fetch leaves a nonempty cache state
exactly as it was. -/
theorem fetch_atomic_witness :
    (fetch netMeta resolveMeta ⟨[], [("u", "p")]⟩ "http://pub.example/doc" false).2.1
      = ⟨[], [("u", "p")]⟩ :=
  (fetch_atomic netMeta resolveMeta ⟨[], [("u", "p")]⟩ "http://pub.example/doc" false).1
    (.blocked .privateAddress) (by decide)

/-- Witness for claim C4: after one successful fetch, fetching the same
URL again returns the cached path with an empty network log. -/
theorem fetch_idempotent_witness :
    fetch netOnePdf resolvePublic
      ⟨[get_cache_filename ("http://pub.example/doc.pdf")],
       [("http://pub.example/doc.pdf", get_cache_filename ("http://pub.example/doc.pdf"))]⟩
      "http://pub.example/doc.pdf" false
      = (.ok (get_cache_filename ("http://pub.example/doc.pdf")),
         ⟨[get_cache_filename ("http://pub.example/doc.pdf")],
          [("http://pub.example/doc.pdf", get_cache_filename ("http://pub.example/doc.pdf"))]⟩,
         []) := by
  have h : fetch netOnePdf resolvePublic ⟨[], []⟩ "http://pub.example/doc.pdf" false
      = (.ok (get_cache_filename ("http://pub.example/doc.pdf")),
         ⟨[get_cache_filename ("http://pub.example/doc.pdf")],
          [("http://pub.example/doc.pdf", get_cache_filename ("http://pub.example/doc.pdf"))]⟩,
         [.get ("http://pub.example/doc.pdf"), .readBody ("http://pub.example/doc.pdf")]) := by
    decide
  exact (fetch_idempotent netOnePdf resolvePublic ⟨[], []⟩ "http://pub.example/doc.pdf"
    (get_cache_filename ("http://pub.example/doc.pdf")) _ _ h).1

/-- Witness for claim C9: in a directory with one deletable cached file,
the deletable file is gone after the clear. -/
theorem clear_cache_best_effort_witness :
    "a.pdf" ∉ (clear_cache (fun _ => true) ⟨["a.pdf"], []⟩).2.files :=
  (clear_cache_best_effort (fun _ => true) ⟨["a.pdf"], []⟩).2.2.2.2.1 ("a.pdf")
    (by decide) (by decide) (by decide)

/-! ## Structure of the cache filename -/

theorem digestBytes_length (st : Hash8) : (digestBytes st).length = 32 := by
  simp [digestBytes, wordBytes]

theorem sha256_length (m : List Nat) : (sha256 m).length = 32 :=
  digestBytes_length _

theorem hexDigest_length : ∀ bs : List Nat, (hexDigest bs).length = 2 * bs.length := by
  intro bs
  induction bs with
  | nil => rfl
  | cons b rest ih =>
    show (List.map byteHex (b :: rest)).flatten.length = 2 * (b :: rest).length
    rw [List.map_cons, List.flatten_cons, List.length_append, List.length_cons]
    have ih' : (List.map byteHex rest).flatten.length = 2 * rest.length := ih
    have hb : (byteHex b).length = 2 := rfl
    omega

theorem sha256hex16_length (u : String) : (sha256hex16 u).length = 16 := by
  unfold sha256hex16
  rw [List.length_take, hexDigest_length, sha256_length]
  decide

/-- A hex digit as produced by the digest rendering. -/
def isHexDigitChar (c : Char) : Bool := hexCharList.contains c

theorem hexCharList_getD (i : Nat) (h : i < 16) :
    isHexDigitChar (hexCharList.getD i '0') = true := by
  interval_cases i <;> decide

theorem byteHex_hex (b : Nat) : ∀ c ∈ byteHex b, isHexDigitChar c = true := by
  intro c hc
  have h1 : b / 16 % 16 < 16 := Nat.mod_lt _ (by decide)
  have h2 : b % 16 < 16 := Nat.mod_lt _ (by decide)
  simp only [byteHex, List.mem_cons, List.mem_singleton] at hc
  rcases hc with hc | hc | hc
  · rw [hc]; exact hexCharList_getD _ h1
  · rw [hc]; exact hexCharList_getD _ h2
  · cases hc

theorem sha256hex16_hex (u : String) : ∀ c ∈ sha256hex16 u, isHexDigitChar c = true := by
  intro c hc
  have hc2 : c ∈ hexDigest (sha256 (utf8Bytes u)) := List.take_subset _ _ hc
  simp only [hexDigest, List.mem_flatten, List.mem_map] at hc2
  obtain ⟨l, ⟨b, _, hb⟩, hcl⟩ := hc2
  rw [← hb] at hcl
  exact byteHex_hex b c hcl

/-- Case analysis of _get_cache_filename following its two branches. -/
theorem get_cache_filename_struct (u : String) :
    (strEndsWith (urlparse u).path (".pdf") = true ∧
      get_cache_filename u
        = String.mk (sha256hex16 u ++ '_' :: sanitizeName (basename (urlparse u).path.data))) ∨
    (strEndsWith (urlparse u).path (".pdf") = false ∧
      get_cache_filename u = String.mk (sha256hex16 u ++ ".pdf".data)) := by
  unfold get_cache_filename
  by_cases h : strEndsWith (urlparse u).path (".pdf")
  · exact Or.inl ⟨h, by rw [if_pos h]⟩
  · refine Or.inr ⟨by simp [h], by rw [if_neg h]⟩

theorem get_cache_filename_hash_prefixed (u : String) :
    ∃ r, get_cache_filename u = String.mk (sha256hex16 u ++ r) := by
  rcases get_cache_filename_struct u with ⟨_, h⟩ | ⟨_, h⟩ <;> exact ⟨_, h⟩

/-- Claim C7: the cache filename is a pure deterministic function of the
URL string alone (the model takes no randomness and no state): its first
16 characters are 16 hex digits of the SHA-256 digest of the URL; when
the URL path ends in .pdf the name is the hash, an underscore and the
sanitized basename, and otherwise the hash followed by a .pdf suffix;
sanitization keeps only alphanumerics, dot, underscore and dash; and
any two URLs whose 16-character digest prefixes differ (which is all but
a negligible fraction of pairs) receive distinct filenames. -/
theorem get_cache_filename_spec :
    (∀ u v : String, u = v → get_cache_filename u = get_cache_filename v) ∧
    (∀ u, (sha256hex16 u).length = 16 ∧ ∀ c ∈ sha256hex16 u, isHexDigitChar c = true) ∧
    (∀ u, strEndsWith (urlparse u).path (".pdf") = true →
      get_cache_filename u
        = String.mk (sha256hex16 u ++ '_' :: sanitizeName (basename (urlparse u).path.data))) ∧
    (∀ u, strEndsWith (urlparse u).path (".pdf") = false →
      get_cache_filename u = String.mk (sha256hex16 u ++ ".pdf".data)) ∧
    (∀ (s : List Char) (c : Char), c ∈ sanitizeName s →
      (c.isAlphanum = true ∨ c = '.' ∨ c = '_' ∨ c = '-')) ∧
    (∀ u v, sha256hex16 u ≠ sha256hex16 v →
      get_cache_filename u ≠ get_cache_filename v) := by
  refine ⟨fun u v h => by rw [h], fun u => ⟨sha256hex16_length u, sha256hex16_hex u⟩,
    ?_, ?_, ?_, ?_⟩
  · intro u h
    rcases get_cache_filename_struct u with ⟨_, he⟩ | ⟨hc, _⟩
    · exact he
    · rw [h] at hc; cases hc
  · intro u h
    rcases get_cache_filename_struct u with ⟨hc, _⟩ | ⟨_, he⟩
    · rw [h] at hc; cases hc
    · exact he
  · intro s c hc
    have hk : keepChar c = true := (List.mem_filter.mp hc).2
    simp only [keepChar, Bool.or_eq_true, beq_iff_eq] at hk
    tauto
  · intro u v hne heq
    obtain ⟨ru, hru⟩ := get_cache_filename_hash_prefixed u
    obtain ⟨rv, hrv⟩ := get_cache_filename_hash_prefixed v
    rw [hru, hrv] at heq
    have hdata : sha256hex16 u ++ ru = sha256hex16 v ++ rv := congrArg String.data heq
    exact hne (List.append_inj hdata
      (by rw [sha256hex16_length, sha256hex16_length])).1

/-- Witness for claim C7: two concrete URLs with different digest
prefixes receive different cache filenames. -/
theorem get_cache_filename_spec_witness :
    get_cache_filename ("http://pub.example/a.pdf")
      ≠ get_cache_filename ("http://pub.example/b") :=
  get_cache_filename_spec.2.2.2.2.2 ("http://pub.example/a.pdf") "http://pub.example/b"
    (by decide)

/-! ## Every cache filename matches the star-dot-pdf glob -/

theorem endsWithPdf_append (A : List Char) :
    strEndsWith (String.mk (A ++ ['.', 'p', 'd', 'f'])) ".pdf" = true := by
  show isPrefixB ((['.', 'p', 'd', 'f'] : List Char).reverse)
    ((A ++ ['.', 'p', 'd', 'f']).reverse) = true
  rw [List.reverse_append]
  exact isPrefixB_refl_append _ _

theorem basename_pdf_suffix (pre : List Char) :
    ∃ B, basename (pre ++ ['.', 'p', 'd', 'f'])
      = B ++ ['.', 'p', 'd', 'f'] := by
  unfold basename
  rw [List.reverse_append]
  refine ⟨(pre.reverse.takeWhile fun c => !(c == '/')).reverse, ?_⟩
  show ((['f', 'd', 'p', '.'] ++ (pre.reverse.takeWhile fun c => !(c == '/'))) :
    List Char).reverse = _
  rw [List.reverse_append]
  rfl

theorem sanitizeName_pdf_suffix (B : List Char) :
    sanitizeName (B ++ ['.', 'p', 'd', 'f']) = sanitizeName B ++ ['.', 'p', 'd', 'f'] := by
  unfold sanitizeName
  rw [List.filter_append]
  rfl

/-- Every filename the filename function can produce ends in .pdf: in the
basename branch the path suffix survives sanitization, and the other
branch appends .pdf explicitly. -/
theorem get_cache_filename_glob (u : String) :
    matchesPdfGlob (get_cache_filename u) = true := by
  rcases get_cache_filename_struct u with ⟨hcond, heq⟩ | ⟨_, heq⟩
  · obtain ⟨t, ht⟩ := isPrefixB_exists hcond
    have hpath : (urlparse u).path.data = t.reverse ++ ['.', 'p', 'd', 'f'] := by
      have h2 := congrArg List.reverse ht
      rw [List.reverse_reverse, List.reverse_append, List.reverse_reverse] at h2
      exact h2
    obtain ⟨B, hB⟩ := basename_pdf_suffix t.reverse
    rw [hpath] at heq
    rw [hB, sanitizeName_pdf_suffix] at heq
    have heq2 : get_cache_filename u
        = String.mk ((sha256hex16 u ++ '_' :: sanitizeName B) ++ ['.', 'p', 'd', 'f']) := by
      rw [heq]
      congr 1
    unfold matchesPdfGlob
    rw [heq2]
    exact endsWithPdf_append _
  · unfold matchesPdfGlob
    rw [heq]
    exact endsWithPdf_append _

/-- The directory contents after a fetch: unchanged, or extended by the
canonical filename of the fetched URL. -/
theorem fetch_files_spec (net : String → Response) (resolve : Resolver) (st : CacheState)
    (url : String) (fr : Bool) :
    (fetch net resolve st url fr).2.1.files = st.files ∨
    (fetch net resolve st url fr).2.1.files
      = diskWrite st.files (get_cache_filename url) := by
  unfold fetch
  cases hv : validate_url resolve url with
  | error b => exact Or.inl rfl
  | ok a =>
    cases fr with
    | true =>
      rw [if_pos rfl]
      unfold downloadAndStore
      rcases hl : fetchLoop net resolve MAX_REDIRECTS url with ⟨r, log⟩
      cases r with
      | error e => exact Or.inl rfl
      | ok c => exact Or.inr rfl
    | false =>
      rw [if_neg Bool.false_ne_true]
      rcases hgl : get_local_path st url with ⟨o, st1⟩
      have hfiles : st1.files = st.files := by
        cases o with
        | some p =>
          have h1 : (get_local_path st url).1 = some p := by rw [hgl]
          have h2 := (get_local_path_some st url p h1).2.2
          rw [hgl] at h2
          exact h2
        | none =>
          have h1 : (get_local_path st url).1 = none := by rw [hgl]
          have h2 := get_local_path_none st url h1
          rw [hgl] at h2
          have h3 : st1 = st := h2
          rw [h3]
      cases o with
      | some p => exact Or.inl hfiles
      | none =>
        unfold downloadAndStore
        rcases hl : fetchLoop net resolve MAX_REDIRECTS url with ⟨r, log⟩
        cases r with
        | error e => exact Or.inl hfiles
        | ok c =>
          refine Or.inr ?_
          show diskWrite st1.files (get_cache_filename url) = _
          rw [hfiles]

/-- Claim C10: every filename the fetcher can ever write matches the
star-dot-pdf glob used by clear_cache and get_cache_stats: every
produced cache filename ends in .pdf, a fetch only ever adds such a
name to the directory, clear_cache never touches a file outside the
glob, and the stats count is exactly the number of glob matches. -/
theorem cache_glob_covers :
    (∀ u, matchesPdfGlob (get_cache_filename u) = true) ∧
    (∀ (net : String → Response) (resolve : Resolver) (st : CacheState)
       (url : String) (fr : Bool) (fn : String),
       fn ∈ (fetch net resolve st url fr).2.1.files →
       fn ∈ st.files ∨ matchesPdfGlob fn = true) ∧
    (∀ (d : String → Bool) (st : CacheState) (f : String),
       f ∈ st.files → matchesPdfGlob f = false → f ∈ (clear_cache d st).2.files) ∧
    (∀ (sizes : String → Nat) (st : CacheState),
       (get_cache_stats sizes st).1 = (st.files.filter matchesPdfGlob).length) := by
  refine ⟨get_cache_filename_glob, ?_, ?_, fun sizes st => rfl⟩
  · intro net resolve st url fr fn hmem
    rcases fetch_files_spec net resolve st url fr with hf | hf
    · rw [hf] at hmem
      exact Or.inl hmem
    · rw [hf] at hmem
      unfold diskWrite at hmem
      by_cases hh : hasFile st.files (get_cache_filename url)
      · rw [if_pos hh] at hmem
        exact Or.inl hmem
      · rw [if_neg hh] at hmem
        rcases List.mem_cons.mp hmem with hmem | hmem
        · rw [hmem]
          exact Or.inr (get_cache_filename_glob url)
        · exact Or.inl hmem
  · intro d st f hmem hglob
    simp only [clear_cache, List.mem_filter]
    exact ⟨hmem, by simp [hglob]⟩

/-- Witness for claim C10: a pre-existing non-pdf file in the directory
is accounted for by the disjunction after a (blocked) fetch. -/
theorem cache_glob_covers_witness :
    "keep.bin" ∈ (⟨["keep.bin"], []⟩ : CacheState).files ∨
      matchesPdfGlob ("keep.bin") = true :=
  cache_glob_covers.2.1 netOnePdf resolvePublic ⟨["keep.bin"], []⟩ "ftp://x" false
    "keep.bin" (by decide)

end PdfMcp
